import Mathlib

/-!
Verification development for the ValidTyped repository (`src/src/index.ts`,
with the documented API variant in `src/unnamed/part_008`).

The library builds JSON-schema documents through combinators
(`string`, `number`, `boolean`, `any`, `nil`, `nominal`, `object`, `record`,
`partial`, `array`, `union`, `intersect`) wrapped in a `Validator` class, and
lazily compiles each schema (at most once per instance) with an Ajv engine
obtained from a per-instance once-cell.  We embed:

  * the JSON value language and the schema documents the combinators produce;
  * the execution engine's keyword semantics (modelled from the spec, since
    Ajv itself is an external collaborator of the repository);
  * the pure combinators, translated from the source;
  * the stateful part of `Validator` (`once` cells for `getAjv` and
    `getCompiledSchema`, `isValid`, `validate`, `setSchemaMetaData`,
    `withOptions`) as explicit state passing;
  * an allocation-counting model used to reason about schema-object identity.
-/

namespace ValidTyped

/-- JSON values, the input language validated at runtime.  JavaScript numbers
are modelled as integers, which covers every value the claims touch. -/
inductive Json where
  | null : Json
  | bool : Bool → Json
  | num : Int → Json
  | str : String → Json
  | arr : List Json → Json
  | obj : List (String × Json) → Json

mutual

/-- The schema documents produced by the combinators of `src/src/index.ts`
(the `Schema` type of `type-level-schema` restricted to the keywords the
library emits, per spec section 6: `type`, `enum`, `properties`, `required`,
`additionalProperties`, `items`, `additionalItems`, `oneOf`, `allOf`, plus
metadata `title`/`description` and the `minItems` option used in the tests).
Each field is optional, mirroring the optional keys of the JS object; `enum`
holds string literals since `string` is the only enum-producing combinator. -/
inductive Schema where
  | mk (ty : Option String)
       (enum : Option (List String))
       (properties : Option (List (String × Schema)))
       (required : Option (List String))
       (addProps : Option AddProps)
       (items : Option ItemsSpec)
       (addItems : Option Bool)
       (oneOf : Option (List Schema))
       (allOf : Option (List Schema))
       (minItems : Option Nat)
       (title : Option String)
       (descr : Option String)

/-- The `additionalProperties` keyword: a boolean or a sub-schema. -/
inductive AddProps where
  | abool (b : Bool)
  | aschema (s : Schema)

/-- The `items` keyword: one schema for every element, or a positional list
of schemas (tuple form). -/
inductive ItemsSpec where
  | single (s : Schema)
  | listed (ss : List Schema)

end

namespace Schema

def ty : Schema → Option String
  | .mk t _ _ _ _ _ _ _ _ _ _ _ => t

def enum : Schema → Option (List String)
  | .mk _ e _ _ _ _ _ _ _ _ _ _ => e

def properties : Schema → Option (List (String × Schema))
  | .mk _ _ p _ _ _ _ _ _ _ _ _ => p

def required : Schema → Option (List String)
  | .mk _ _ _ r _ _ _ _ _ _ _ _ => r

def addProps : Schema → Option AddProps
  | .mk _ _ _ _ a _ _ _ _ _ _ _ => a

def items : Schema → Option ItemsSpec
  | .mk _ _ _ _ _ i _ _ _ _ _ _ => i

def addItems : Schema → Option Bool
  | .mk _ _ _ _ _ _ ai _ _ _ _ _ => ai

def oneOf : Schema → Option (List Schema)
  | .mk _ _ _ _ _ _ _ o _ _ _ _ => o

def allOf : Schema → Option (List Schema)
  | .mk _ _ _ _ _ _ _ _ al _ _ _ => al

def minItems : Schema → Option Nat
  | .mk _ _ _ _ _ _ _ _ _ m _ _ => m

def title : Schema → Option String
  | .mk _ _ _ _ _ _ _ _ _ _ ti _ => ti

def descr : Schema → Option String
  | .mk _ _ _ _ _ _ _ _ _ _ _ d => d

/-- The empty JS object literal `{}` (the schema built by `any()`). -/
def base : Schema := .mk none none none none none none none none none none none none

def setTy (s : Schema) (v : Option String) : Schema :=
  match s with
  | .mk _ e p r a i ai o al m ti d => .mk v e p r a i ai o al m ti d

def setEnum (s : Schema) (v : Option (List String)) : Schema :=
  match s with
  | .mk t _ p r a i ai o al m ti d => .mk t v p r a i ai o al m ti d

def setProperties (s : Schema) (v : Option (List (String × Schema))) : Schema :=
  match s with
  | .mk t e _ r a i ai o al m ti d => .mk t e v r a i ai o al m ti d

def setRequired (s : Schema) (v : Option (List String)) : Schema :=
  match s with
  | .mk t e p _ a i ai o al m ti d => .mk t e p v a i ai o al m ti d

def setAddProps (s : Schema) (v : Option AddProps) : Schema :=
  match s with
  | .mk t e p r _ i ai o al m ti d => .mk t e p r v i ai o al m ti d

def setItems (s : Schema) (v : Option ItemsSpec) : Schema :=
  match s with
  | .mk t e p r a _ ai o al m ti d => .mk t e p r a v ai o al m ti d

def setAddItems (s : Schema) (v : Option Bool) : Schema :=
  match s with
  | .mk t e p r a i _ o al m ti d => .mk t e p r a i v o al m ti d

def setOneOf (s : Schema) (v : Option (List Schema)) : Schema :=
  match s with
  | .mk t e p r a i ai _ al m ti d => .mk t e p r a i ai v al m ti d

def setAllOf (s : Schema) (v : Option (List Schema)) : Schema :=
  match s with
  | .mk t e p r a i ai o _ m ti d => .mk t e p r a i ai o v m ti d

def setMinItems (s : Schema) (v : Option Nat) : Schema :=
  match s with
  | .mk t e p r a i ai o al _ ti d => .mk t e p r a i ai o al v ti d

def setTitle (s : Schema) (v : Option String) : Schema :=
  match s with
  | .mk t e p r a i ai o al m _ d => .mk t e p r a i ai o al m v d

def setDescr (s : Schema) (v : Option String) : Schema :=
  match s with
  | .mk t e p r a i ai o al m ti _ => .mk t e p r a i ai o al m ti v

end Schema

/-- Modelled from the spec: the engine's `type` keyword — the runtime kind of
a JSON value must match the named type (no constraint when absent). -/
def typeOk (t : Option String) (j : Json) : Bool :=
  match t with
  | none => true
  | some t =>
    match j with
    | .null => t == "null"
    | .bool _ => t == "boolean"
    | .num _ => t == "number"
    | .str _ => t == "string"
    | .arr _ => t == "array"
    | .obj _ => t == "object"

/-- Modelled from the spec: the engine's `enum` keyword over string literals —
the value must equal one of the listed literals (no constraint when absent). -/
def enumOk (e : Option (List String)) (j : Json) : Bool :=
  match e with
  | none => true
  | some l =>
    match j with
    | .str s => l.contains s
    | _ => false

/-- Looks a key up in the field list of a JSON object. -/
def lookupField (fields : List (String × Json)) (k : String) : Option Json :=
  match fields with
  | [] => none
  | f :: rest => if f.1 == k then some f.2 else lookupField rest k

/-- The property names fixed by the `properties` keyword. -/
def propNames (p : Option (List (String × Schema))) : List String :=
  (p.getD []).map Prod.fst

/-- Modelled from the spec: the schema-execution engine (Ajv, the external
collaborator the repository delegates to) — `check fuel s j` evaluates the
keyword semantics of spec section 6 on a value: `type`, `enum`, `properties`
(each listed property, when present in the data, must match its sub-schema),
`required` (each listed key must be present), `additionalProperties` (keys not
fixed by `properties` must satisfy the boolean or sub-schema), `items` (single
form: every element; tuple form: positional, with `additionalItems` governing
excess elements, absent meaning permissive), `oneOf` (exactly one alternative
matches), `allOf` (every part matches) and `minItems`.  The `fuel` parameter
only makes the recursion structural; it strictly exceeds the schema-tree depth
in every use below. -/
def checkBody (rec : Schema → Json → Bool) (s : Schema) (j : Json) : Bool :=
    typeOk s.ty j &&
    enumOk s.enum j &&
    (match j, s.properties with
     | .obj fields, some ps =>
       ps.all fun p =>
         match lookupField fields p.1 with
         | some jv => rec p.2 jv
         | none => true
     | _, _ => true) &&
    (match j, s.required with
     | .obj fields, some ks => ks.all fun k => (lookupField fields k).isSome
     | _, _ => true) &&
    (match j, s.addProps with
     | .obj fields, some ap =>
       fields.all fun f =>
         if (propNames s.properties).contains f.1 then true
         else
           match ap with
           | .abool b => b
           | .aschema sub => rec sub f.2
     | _, _ => true) &&
    (match j, s.items with
     | .arr xs, some (.single isch) => xs.all (rec isch)
     | .arr xs, some (.listed ischs) =>
       ((ischs.zip xs).all fun p => rec p.1 p.2) &&
       (decide (xs.length ≤ ischs.length) || s.addItems.getD true)
     | _, _ => true) &&
    (match s.oneOf with
     | some alts => (alts.countP fun a => rec a j) == 1
     | none => true) &&
    (match s.allOf with
     | some parts => parts.all fun a => rec a j
     | none => true) &&
    (match j, s.minItems with
     | .arr xs, some m => decide (m ≤ xs.length)
     | _, _ => true)

/-- The engine checker: `checkBody` tied with fuel (see `checkBody` for the
keyword semantics; the fuel strictly exceeds the schema depth in every use). -/
def check : Nat → Schema → Json → Bool
  | 0, _, _ => false
  | n + 1, s, j => checkBody (check n) s j

theorem check_succ (n : Nat) (s : Schema) (j : Json) :
    check (n + 1) s j = checkBody (check n) s j := rfl

/-- The runtime payload of the `Validator<T>` class: one owned schema (the
phantom type parameter `T` has no runtime representation).  This structure
covers the pure part; the lazy once-cells are modelled by `ValState` below. -/
structure Validator where
  schema : Schema

/-- `Validator.getSchema` of `src/src/index.ts`: returns the owned schema. -/
def Validator.getSchema (v : Validator) : Schema := v.schema

/-- Engine verdict on a validator's current schema with the given fuel
(the pure composition `compile (getSchema v)` applied to `j`). -/
def isValidF (n : Nat) (v : Validator) (j : Json) : Bool :=
  check n v.getSchema j

/-- `string` of `src/src/index.ts` lines 172-177: `{ type: 'string', ...e }`
where `e` is `{ enum: union }` exactly when the argument was provided — a JS
truthiness test, under which the empty array still counts as provided. -/
def string (enumVals : Option (List String)) : Validator :=
  let e := match enumVals with
    | some u => Schema.base.setEnum (some u)
    | none => Schema.base
  ⟨(e.setTy (some "string"))⟩

/-- `number` of `src/src/index.ts` lines 179-181. -/
def number : Validator := ⟨Schema.base.setTy (some "number")⟩

/-- `boolean` of `src/src/index.ts` lines 183-185. -/
def boolean : Validator := ⟨Schema.base.setTy (some "boolean")⟩

/-- `any` of `src/src/index.ts` lines 187-189: the empty schema `{}`. -/
def any : Validator := ⟨Schema.base⟩

/-- `nil` of `src/unnamed/part_008` lines 573-575: `{ type: 'null' }`. -/
def nil : Validator := ⟨Schema.base.setTy (some "null")⟩

/-- `nominal` of `src/src/index.ts` lines 191-193: a new `Validator` built
directly on the operand's schema (`new Validator(v.getSchema())`); the tag
only affects the phantom type. -/
def nominal (v : Validator) (tag : String) : Validator :=
  ⟨v.getSchema⟩

/-- The options object of `object`: `Partial<{ optional: OptionalKeys[] }>`. -/
structure ObjectOptions where
  optional : Option (List String)

/-- `object` of `src/src/index.ts` lines 197-216: properties are each field
validator's current schema, `required` is the listed keys filtered by
`options.optional` (defaulted to `[]` both when `opts` is absent and when its
`optional` key is absent, per `{ optional: [], ...opts }`). -/
def object (o : List (String × Validator)) (opts : Option ObjectOptions) : Validator :=
  let options : List String := match opts with
    | none => []
    | some os => os.optional.getD []
  let properties := o.map fun p => (p.1, p.2.getSchema)
  let required := (o.map Prod.fst).filter fun key => !(options.contains key)
  ⟨((Schema.base.setTy (some "object")).setProperties (some properties)).setRequired
    (some required)⟩

/-- `record` of `src/src/index.ts` lines 218-223:
`{ type: 'object', additionalProperties: types.getSchema() }`. -/
def record (types : Validator) : Validator :=
  ⟨(Schema.base.setTy (some "object")).setAddProps (some (.aschema types.getSchema))⟩

/-- `partial` of `src/src/index.ts` lines 225-233 (a Lean keyword forces the
`V` suffix): throws unless the operand's schema has a `type` field equal to
`'object'`, otherwise returns `new Validator({ ...schema, required: [] })`.
The thrown configuration errors are modelled as `Except.error`, returned by
the combinator itself before any `Validator` is built. -/
def partialV (v : Validator) : Except String Validator :=
  let schema := v.getSchema
  if schema.ty.isNone then .error "Must apply partial only to a type definition"
  else if schema.ty != some "object" then .error "Must only apply partial to an object schema"
  else .ok ⟨schema.setRequired (some [])⟩

/-- `array` of `src/unnamed/part_008` lines 719-725 (the variant of the
documented API that accepts a single item validator):
`{ type: 'array', items: [ v.getSchema() ], additionalItems: true }` — note
the one-element list around the item schema.  (The `src/src/index.ts`
snapshot of `array` instead calls `v.map(...)` on its operand, which on a
single `Validator` argument is a runtime `TypeError`.) -/
def array (v : Validator) : Validator :=
  ⟨((Schema.base.setTy (some "array")).setItems
      (some (.listed [v.getSchema]))).setAddItems (some true)⟩

/-- `union` of `src/src/index.ts` lines 243-247:
`{ oneOf: v.map(x => x.getSchema()) }`. -/
def union (v : List Validator) : Validator :=
  ⟨Schema.base.setOneOf (some (v.map fun x => x.getSchema))⟩

/-- `intersect` of `src/src/index.ts` lines 249-251:
`{ allOf: [v1.getSchema(), v2.getSchema()] }`. -/
def intersect (v1 v2 : Validator) : Validator :=
  ⟨Schema.base.setAllOf (some [v1.getSchema, v2.getSchema])⟩

/-- `Validator.or` of `src/src/index.ts` lines 145-147: `union([this, v])`. -/
def Validator.or (t v : Validator) : Validator := union [t, v]

/-- `Validator.and` of `src/src/index.ts` lines 163-165: `intersect(this, v)`. -/
def Validator.and (t v : Validator) : Validator := intersect t v

/-- `Validator.orNull` of `src/unnamed/part_008` lines 475-477: `this.or(nil())`. -/
def Validator.orNull (t : Validator) : Validator := t.or nil

/-- Ajv's structured error object, restricted to the fields the spec names
(section 6): instance path, schema path, violated keyword, message. -/
structure ErrObj where
  instancePath : String
  schemaPath : String
  keyword : String
  message : String

/-- The metadata accepted by `setSchemaMetaData` (`SchemaMetaData` of
`type-level-schema`, restricted to the fields the spec names). -/
structure MetaData where
  title : Option String
  descr : Option String

/-- The engine-specific options accepted by `withOptions`, restricted to the
`minItems` bound exercised by the repository's tests. -/
structure SchemaOpts where
  minItems : Option Nat

/-- The JS spread `{ ...schema, ...meta }` of `setSchemaMetaData`: a shallow
overlay where keys present in `meta` win. -/
def Schema.mergeMeta (s : Schema) (meta : MetaData) : Schema :=
  (s.setTitle (meta.title.or s.title)).setDescr (meta.descr.or s.descr)

/-- The JS spread `{ ...schema, ...opts }` of `withOptions`. -/
def Schema.mergeOpts (s : Schema) (opts : SchemaOpts) : Schema :=
  s.setMinItems (opts.minItems.or s.minItems)

/-- The mutable state of one `Validator` instance: the owned schema (mutated
in place by `setSchemaMetaData`/`withOptions`) and the two `once` cells of
`src/src/index.ts` lines 52-64 and 86-91 — `ajv` caches the result of
`getAjv` (an engine instance, identified by its creation index), `compiled`
caches the result of `getCompiledSchema` (which engine compiled it and the
schema value it was compiled from). -/
structure ValState where
  schema : Schema
  ajv : Option Nat
  compiled : Option (Nat × Schema)

/-- `new Validator(schema)`: fresh instance, both once-cells unfired. -/
def initState (v : Validator) : ValState :=
  ⟨v.schema, none, none⟩

/-- The schema value the instance's cached matcher was compiled from. -/
def ValState.cachedSchema (st : ValState) : Option Schema :=
  st.compiled.map Prod.snd

/-- `private getAjv = once(() => new Ajv())` (`src/src/index.ts` line 86):
on first call creates a fresh engine instance (`cnt` is the count of engine
instances created so far in the process; the new instance gets that index);
afterwards returns the cached one. -/
def getAjvS (st : ValState) (cnt : Nat) : Nat × ValState × Nat :=
  match st.ajv with
  | some i => (i, st, cnt)
  | none => (cnt, { st with ajv := some cnt }, cnt + 1)

/-- `private getCompiledSchema = once(...)` (`src/src/index.ts` lines 87-91):
on first call obtains the engine via `getAjv` and compiles the schema value
current at that moment; afterwards returns the cached matcher unchanged. -/
def getCompiledS (st : ValState) (cnt : Nat) : (Nat × Schema) × ValState × Nat :=
  match st.compiled with
  | some m => (m, st, cnt)
  | none =>
    let r := getAjvS st cnt
    let m := (r.1, r.2.1.schema)
    (m, { r.2.1 with compiled := some m }, r.2.2)

/-- `isValid` of `src/src/index.ts` lines 107-111: obtains the compiled
matcher and invokes it.  The engine's verdict function `eval` (what Ajv's
compiled matcher computes from the schema it closed over) is a parameter. -/
def isValidS (eval : Schema → Json → Bool) (st : ValState) (cnt : Nat) (d : Json) :
    Bool × ValState × Nat :=
  let r := getCompiledS st cnt
  (eval r.1.2 d, r.2.1, r.2.2)

/-- The result shapes `ValidResult`/`InvalidResult` of `src/src/index.ts`
lines 34-46, discriminated on `valid`. -/
inductive VResult where
  | ok (data : Json)
  | err (errors : List ErrObj)

/-- `validate` of `src/src/index.ts` lines 118-125: calls `isValid`; on
success returns the input as `data`; on failure re-obtains the cached matcher
and returns `ajvValidator.errors || []` — the matcher's error state after its
most recent (failed) invocation, which was on `d`.  `errs` models the
engine's error report for a compiled schema and an input (`none` when the
engine provides no detail). -/
def validateS (eval : Schema → Json → Bool) (errs : Schema → Json → Option (List ErrObj))
    (st : ValState) (cnt : Nat) (d : Json) : VResult × ValState × Nat :=
  let r := isValidS eval st cnt d
  if r.1 then (.ok d, r.2.1, r.2.2)
  else
    let r2 := getCompiledS r.2.1 r.2.2
    (.err ((errs r2.1.2 d).getD []), r2.2.1, r2.2.2)

/-- `setSchemaMetaData` of `src/src/index.ts` lines 133-139: reassigns the
owned schema to the shallow merge and returns the same instance. -/
def setSchemaMetaDataS (st : ValState) (meta : MetaData) : ValState :=
  { st with schema := st.schema.mergeMeta meta }

/-- `withOptions` of `src/unnamed/part_008` lines 424-430: reassigns the
owned schema to the shallow merge with the options and returns the same
instance. -/
def withOptionsS (st : ValState) (opts : SchemaOpts) : ValState :=
  { st with schema := st.schema.mergeOpts opts }

/-- One public operation on a single `Validator` instance. -/
inductive VOp where
  | isvalid (d : Json)
  | validate (d : Json)
  | setMeta (m : MetaData)
  | withOpts (o : SchemaOpts)

/-- Applies one operation to the instance state and the process-wide engine
creation count. -/
def applyOp (eval : Schema → Json → Bool) (errs : Schema → Json → Option (List ErrObj)) :
    VOp → ValState × Nat → ValState × Nat
  | .isvalid d, (st, c) => (isValidS eval st c d).2
  | .validate d, (st, c) => (validateS eval errs st c d).2
  | .setMeta m, (st, c) => (setSchemaMetaDataS st m, c)
  | .withOpts o, (st, c) => (withOptionsS st o, c)

/-- Applies a sequence of operations in order. -/
def runOps (eval : Schema → Json → Bool) (errs : Schema → Json → Option (List ErrObj)) :
    List VOp → ValState × Nat → ValState × Nat
  | [], s => s
  | op :: rest, s => runOps eval errs rest (applyOp eval errs op s)

/-! ### Allocation model for schema-object identity

JavaScript object identity is modelled by tagging the top-level schema node a
`Validator` holds with the index of the object-literal evaluation that created
it.  A combinator that executes a fresh literal `{ ... }` allocates the next
index; `nominal`, which passes `v.getSchema()` straight to the constructor,
performs no allocation and hands the operand's node on. -/

/-- A validator together with the allocation index of the schema object it
holds. -/
structure ValidatorA where
  sid : Nat
  schema : Schema

/-- Evaluating `new Validator({ ... })` on a fresh object literal: the literal
gets the next allocation index. -/
def newValidatorA (s : Schema) (n : Nat) : ValidatorA × Nat := (⟨n, s⟩, n + 1)

/-- `string` in the allocation model (fresh literal). -/
def stringA (enumVals : Option (List String)) (n : Nat) : ValidatorA × Nat :=
  newValidatorA (string enumVals).schema n

/-- `number` in the allocation model (fresh literal). -/
def numberA (n : Nat) : ValidatorA × Nat := newValidatorA number.schema n

/-- `nominal` in the allocation model: `new Validator(v.getSchema())` builds a
new `Validator` but evaluates no new schema literal, so the operand's schema
object — same allocation index — is handed on. -/
def nominalA (v : ValidatorA) (tag : String) (n : Nat) : ValidatorA × Nat :=
  (⟨v.sid, v.schema⟩, n)

/-- `object` in the allocation model (fresh top-level literal whose
`properties` snapshot the operands' current schema values). -/
def objectA (o : List (String × ValidatorA)) (opts : Option ObjectOptions) (n : Nat) :
    ValidatorA × Nat :=
  newValidatorA (object (o.map fun p => (p.1, ⟨p.2.schema⟩)) opts).schema n

/-- `record` in the allocation model (fresh literal). -/
def recordA (v : ValidatorA) (n : Nat) : ValidatorA × Nat :=
  newValidatorA (record ⟨v.schema⟩).schema n

/-- `partial` in the allocation model: on success the spread
`{ ...schema, required: [] }` is a fresh literal. -/
def partialA (v : ValidatorA) (n : Nat) : Except String (ValidatorA × Nat) :=
  match partialV ⟨v.schema⟩ with
  | .error e => .error e
  | .ok w => .ok (newValidatorA w.schema n)

/-- `array` in the allocation model (fresh literal). -/
def arrayA (v : ValidatorA) (n : Nat) : ValidatorA × Nat :=
  newValidatorA (array ⟨v.schema⟩).schema n

/-- `union` in the allocation model (fresh literal). -/
def unionA (vs : List ValidatorA) (n : Nat) : ValidatorA × Nat :=
  newValidatorA (union (vs.map fun v => ⟨v.schema⟩)).schema n

/-- `intersect` in the allocation model (fresh literal). -/
def intersectA (v1 v2 : ValidatorA) (n : Nat) : ValidatorA × Nat :=
  newValidatorA (intersect ⟨v1.schema⟩ ⟨v2.schema⟩).schema n

/-- `setSchemaMetaData` in the allocation model: `{ ...this.schema, ...meta }`
evaluates a fresh literal and reassigns the field to it — the previously held
schema object is replaced, never mutated. -/
def setSchemaMetaDataA (v : ValidatorA) (meta : MetaData) (n : Nat) : ValidatorA × Nat :=
  (⟨n, v.schema.mergeMeta meta⟩, n + 1)

/-! ### Helper lemmas (shared) -/

theorem getCompiledS_of_some {st : ValState} {c : Nat} {m : Nat × Schema}
    (h : st.compiled = some m) : getCompiledS st c = (m, st, c) := by
  simp [getCompiledS, h]

theorem getCompiledS_compiled_eq (st : ValState) (c : Nat) :
    ((getCompiledS st c).2.1).compiled = some (getCompiledS st c).1 := by
  unfold getCompiledS
  cases h : st.compiled <;> simp [h]

theorem getCompiledS_schema_eq (st : ValState) (c : Nat) :
    ((getCompiledS st c).2.1).schema = st.schema := by
  unfold getCompiledS getAjvS
  cases hc : st.compiled <;> cases ha : st.ajv <;> simp [hc, ha]

theorem compiled_stable_applyOp (eval : Schema → Json → Bool)
    (errs : Schema → Json → Option (List ErrObj)) (op : VOp) (s : ValState × Nat)
    (m : Nat × Schema) (h : s.1.compiled = some m) :
    ((applyOp eval errs op s).1).compiled = some m := by
  obtain ⟨st, c⟩ := s
  simp only at h
  cases op with
  | isvalid d =>
    simp [applyOp, isValidS, getCompiledS_of_some h, h]
  | validate d =>
    simp only [applyOp, validateS, isValidS, getCompiledS_of_some h]
    split <;> simp [getCompiledS_of_some h, h]
  | setMeta mm => simpa [applyOp, setSchemaMetaDataS] using h
  | withOpts o => simpa [applyOp, withOptionsS] using h

theorem compiled_stable_runOps (eval : Schema → Json → Bool)
    (errs : Schema → Json → Option (List ErrObj)) (ops : List VOp) :
    ∀ (s : ValState × Nat) (m : Nat × Schema), s.1.compiled = some m →
    ((runOps eval errs ops s).1).compiled = some m := by
  induction ops with
  | nil => intro s m h; simpa [runOps] using h
  | cons op rest ih =>
    intro s m h
    rw [runOps]
    exact ih _ m (compiled_stable_applyOp eval errs op s m h)

theorem ajv_stable_applyOp (eval : Schema → Json → Bool)
    (errs : Schema → Json → Option (List ErrObj)) (op : VOp) (s : ValState × Nat)
    (i : Nat) (h : s.1.ajv = some i) :
    ((applyOp eval errs op s).1).ajv = some i := by
  obtain ⟨st, c⟩ := s
  simp only at h
  cases op with
  | isvalid d =>
    simp only [applyOp, isValidS]
    unfold getCompiledS getAjvS
    cases hc : st.compiled <;> simp [h, hc]
  | validate d =>
    simp only [applyOp, validateS, isValidS]
    unfold getCompiledS getAjvS
    cases hc : st.compiled <;> split <;> simp_all
  | setMeta mm => simpa [applyOp, setSchemaMetaDataS] using h
  | withOpts o => simpa [applyOp, withOptionsS] using h

theorem Schema.properties_setRequired (s : Schema) (r : Option (List String)) :
    (s.setRequired r).properties = s.properties := by
  cases s; rfl

theorem Schema.required_setRequired (s : Schema) (r : Option (List String)) :
    (s.setRequired r).required = r := by
  cases s; rfl

theorem getCompiledS_fst_schema {st : ValState} (c : Nat) (h : st.compiled = none) :
    (getCompiledS st c).1.2 = st.schema := by
  unfold getCompiledS getAjvS
  cases st.ajv <;> simp [h]

theorem cachedSchema_after_getCompiledS (st : ValState) (c : Nat) :
    ((getCompiledS st c).2.1).cachedSchema = some (getCompiledS st c).1.2 := by
  rw [ValState.cachedSchema, getCompiledS_compiled_eq]
  rfl

theorem ajv_stable_runOps (eval : Schema → Json → Bool)
    (errs : Schema → Json → Option (List ErrObj)) (ops : List VOp) :
    ∀ (s : ValState × Nat) (i : Nat), s.1.ajv = some i →
    ((runOps eval errs ops s).1).ajv = some i := by
  induction ops with
  | nil => intro s i h; simpa [runOps] using h
  | cons op rest ih =>
    intro s i h
    rw [runOps]
    exact ih _ i (ajv_stable_applyOp eval errs op s i h)

/-- A concrete always-true engine verdict, used for concrete runs (the cache
and engine bookkeeping do not depend on verdicts). -/
def evTrue : Schema → Json → Bool := fun _ _ => true

/-- A concrete always-false engine verdict. -/
def evFalse : Schema → Json → Bool := fun _ _ => false

/-- A concrete engine that reports no error detail. -/
def errNone : Schema → Json → Option (List ErrObj) := fun _ _ => none

/-- A concrete engine error report with one structured entry. -/
def errOne : Schema → Json → Option (List ErrObj) :=
  fun _ _ => some [ErrObj.mk "" "#/type" "type" "should be number"]

/-- A concrete process run: two fresh Validators (a string one and a number
one) are each validated once in the same process, starting from engine
creation count 0.  Returns both final instance states and the final count. -/
def c3Run : ValState × ValState × Nat :=
  let r1 := isValidS evTrue (initState (string none)) 0 (Json.str "x")
  let r2 := isValidS evTrue (initState number) r1.2.2 (Json.num 0)
  (r1.2.1, r2.2.1, r2.2.2)

/-! ### Claim theorems -/

/-- C1: the claim states that `array(v)` builds an array schema whose `items`
equals `v`'s schema and that, under it, a list is valid only if every element
satisfies `v`'s schema.  The code instead wraps the item schema in a
one-element list (`items: [ v.getSchema() ]`, `src/unnamed/part_008` lines
719-725), which the engine reads as a positional tuple constraint: with
`additionalItems: true`, only index 0 is checked.  This theorem evaluates the
embedded code at the failing input: `array(number())` accepts
`[21, "hi"]` although `"hi"` does not satisfy the number schema — contrary to
the claim, the code's own documentation ("matches on arrays of the given
type", static type `T[]`) and the spec. -/
theorem claim_C1 :
    (array number).getSchema.items = some (ItemsSpec.listed [number.getSchema])
    ∧ (array number).getSchema.addItems = some true
    ∧ isValidF 3 (array number) (Json.arr [Json.num 21, Json.str "hi"]) = true
    ∧ isValidF 3 number (Json.str "hi") = false :=
  ⟨rfl, rfl, by decide, by decide⟩

/-- C6: `partial` (embedded as `partialV`) fails at combinator-call time —
returning a configuration error before any `Validator` is built — whenever
the operand's schema lacks a `type` field or its type is not `'object'`; on
an object-typed operand it returns a Validator whose schema keeps the same
properties but has an empty `required` list. -/
theorem claim_C6 (v : Validator) :
    ((v.getSchema.ty = none ∨ v.getSchema.ty ≠ some "object") →
      ∃ e, partialV v = .error e)
    ∧ (v.getSchema.ty = some "object" →
      partialV v = .ok ⟨v.getSchema.setRequired (some [])⟩
      ∧ (v.getSchema.setRequired (some [])).properties = v.getSchema.properties
      ∧ (v.getSchema.setRequired (some [])).required = some []) := by
  constructor
  · intro h
    rcases hty : v.getSchema.ty with _ | t
    · exact ⟨"Must apply partial only to a type definition", by simp [partialV, hty]⟩
    · have hne : t ≠ "object" := by
        rcases h with h | h
        · simp [hty] at h
        · simpa [hty] using h
      exact ⟨"Must only apply partial to an object schema", by simp [partialV, hty, hne]⟩
  · intro h
    refine ⟨by simp [partialV, h], Schema.properties_setRequired _ _,
      Schema.required_setRequired _ _⟩

/-- C6 witness: a string-typed operand is rejected with an error, and an
object-typed operand is accepted. -/
theorem claim_C6_witness :
    (∃ e, partialV (string none) = .error e)
    ∧ partialV (object [("a", string none)] none)
        = .ok ⟨(object [("a", string none)] none).getSchema.setRequired (some [])⟩ :=
  ⟨(claim_C6 (string none)).1 (Or.inr (by decide)),
   ((claim_C6 (object [("a", string none)] none)).2 rfl).1⟩

/-- C7: `union(vs)` builds a `oneOf` composition of the operands' current
schemas in the given order, `or` is `union` of the two operands, and under
the engine's `oneOf` keyword the verdict is "exactly one alternative
matches": the concrete input `"a"`, which matches both of the structurally
overlapping alternatives `string()` and `string(['a','b'])`, is rejected by
their union. -/
theorem claim_C7 :
    (∀ vs, (union vs).getSchema = Schema.base.setOneOf (some (vs.map Validator.getSchema)))
    ∧ (∀ v1 v2, Validator.or v1 v2 = union [v1, v2])
    ∧ (∀ n vs j, isValidF (n + 1) (union vs) j
        = ((vs.countP fun v => isValidF n v j) == 1))
    ∧ isValidF 5 (string none) (Json.str "a") = true
    ∧ isValidF 5 (string (some ["a", "b"])) (Json.str "a") = true
    ∧ isValidF 6 (union [string none, string (some ["a", "b"])]) (Json.str "a") = false := by
  refine ⟨fun vs => rfl, fun v1 v2 => rfl, ?_, by decide, by decide, by decide⟩
  intro n vs j
  cases j <;>
    simp [isValidF, union, Validator.getSchema, check_succ, checkBody, Schema.base,
      Schema.setOneOf, Schema.ty, Schema.enum, Schema.properties, Schema.required,
      Schema.addProps, Schema.items, Schema.addItems, Schema.oneOf, Schema.allOf,
      Schema.minItems, typeOk, enumOk, List.countP_map, Function.comp_def]

/-- C8: `object(fields, opts)` builds an object schema whose properties map
each listed field name to that field validator's current schema, and whose
`required` list is exactly the listed names not contained in `opts.optional`
(membership characterisation included); with no options every listed field is
required.  The spec's example behaves as stated under the engine model. -/
theorem claim_C8 :
    (∀ fields opts, (object fields (some opts)).getSchema.ty = some "object"
      ∧ (object fields (some opts)).getSchema.properties
          = some (fields.map fun p => (p.1, p.2.getSchema))
      ∧ (object fields (some opts)).getSchema.required
          = some ((fields.map Prod.fst).filter fun k => !((opts.optional.getD []).contains k)))
    ∧ (∀ fields opts k,
        k ∈ ((object fields (some opts)).getSchema.required).getD []
          ↔ k ∈ fields.map Prod.fst ∧ k ∉ opts.optional.getD [])
    ∧ (∀ fields, (object fields none).getSchema.required = some (fields.map Prod.fst))
    ∧ isValidF 5 (object [("a", string none), ("b", number)] (some ⟨some ["b"]⟩))
        (Json.obj [("a", Json.str "x")]) = true
    ∧ isValidF 5 (object [("a", string none), ("b", number)] (some ⟨some ["b"]⟩))
        (Json.obj []) = false := by
  refine ⟨fun fields opts => ⟨rfl, rfl, rfl⟩, ?_, ?_, by decide, by decide⟩
  · intro fields opts k
    simp [object, Validator.getSchema, Schema.base, Schema.setTy, Schema.setProperties,
      Schema.setRequired, Schema.required, List.mem_filter]
  · intro fields
    simp [object, Validator.getSchema, Schema.base, Schema.setTy, Schema.setProperties,
      Schema.setRequired, Schema.required]

/-- C9 counterexample: the claim says no two independent Validators ever hold
the identical Schema object.  But `nominal` (`src/src/index.ts` lines
191-193) passes `v.getSchema()` — the operand's schema object itself, no new
literal — to the constructor: in the allocation model,
`nominal(string(), 'id')` holds the very node (allocation index 0) its
operand holds, and no allocation happens. -/
theorem claim_C9_counterexample :
    ((nominalA (stringA none 0).1 "id" (stringA none 0).2).1).sid = ((stringA none 0).1).sid
    ∧ ((stringA none 0).1).sid = 0
    ∧ (nominalA (stringA none 0).1 "id" (stringA none 0).2).2 = (stringA none 0).2 := by
  exact ⟨rfl, rfl, rfl⟩

/-- C9 amended: every schema-consuming combinator except `nominal` evaluates
a fresh top-level schema literal (allocation index = the current counter, so
distinct from every operand allocated earlier), with `object`'s properties
snapshotting the operands' schema values at construction time; `nominal`
shares its operand's schema object; and the metadata mutation replaces the
owned schema with a freshly allocated merged object rather than mutating the
shared one — which is why later mutation of a child cannot retroactively
affect a parent's snapshot. -/
theorem claim_C9_amended :
    (∀ v tag n, (nominalA v tag n).1.sid = v.sid ∧ (nominalA v tag n).2 = n)
    ∧ (∀ o opts n, (objectA o opts n).1.sid = n ∧ (objectA o opts n).2 = n + 1)
    ∧ (∀ v n, (arrayA v n).1.sid = n)
    ∧ (∀ vs n, (unionA vs n).1.sid = n)
    ∧ (∀ v1 v2 n, (intersectA v1 v2 n).1.sid = n)
    ∧ (∀ v n, (recordA v n).1.sid = n)
    ∧ (∀ v n w, partialA v n = .ok w → w.1.sid = n ∧ w.2 = n + 1)
    ∧ (∀ (v : ValidatorA) n, v.sid < n →
        ∀ o opts, (objectA o opts n).1.sid ≠ v.sid)
    ∧ (∀ o opts n, ((objectA o opts n).1).schema.properties
        = some (o.map fun p => (p.1, p.2.schema)))
    ∧ (∀ v meta n, (setSchemaMetaDataA v meta n).1.sid = n
        ∧ (setSchemaMetaDataA v meta n).1.schema = v.schema.mergeMeta meta
        ∧ (setSchemaMetaDataA v meta n).2 = n + 1) := by
  refine ⟨fun v tag n => ⟨rfl, rfl⟩, fun o opts n => ⟨rfl, rfl⟩, fun v n => rfl,
    fun vs n => rfl, fun v1 v2 n => rfl, fun v n => rfl, ?_, ?_, ?_,
    fun v meta n => ⟨rfl, rfl, rfl⟩⟩
  · intro v n w h
    unfold partialA at h
    rcases hp : partialV (⟨v.schema⟩ : Validator) with e | w'
    · rw [hp] at h; exact absurd h (by simp)
    · rw [hp] at h
      cases h
      exact ⟨rfl, rfl⟩
  · intro v n h o opts
    exact ne_of_gt h
  · intro o opts n
    simp [objectA, newValidatorA, object, Validator.getSchema, Schema.base,
      Schema.setTy, Schema.setProperties, Schema.setRequired, Schema.properties]

/-- C9 amended witness: a parent object built after a validator with index 0
gets a distinct schema node, and `partial` allocates freshly on success. -/
theorem claim_C9_amended_witness :
    (objectA [("a", (stringA none 0).1)] none 1).1.sid ≠ ((stringA none 0).1).sid
    ∧ ∃ w, partialA (objectA [] none 0).1 1 = .ok w ∧ w.1.sid = 1 :=
  ⟨(claim_C9_amended.2.2.2.2.2.2.2.1 ((stringA none 0).1) 1 (by decide)
      [("a", (stringA none 0).1)] none),
   ⟨_, rfl, (claim_C9_amended.2.2.2.2.2.2.1 (objectA [] none 0).1 1 _ rfl).1⟩⟩

/-- C2: the compiled matcher is created at most once per instance — the first
`isValid`/`validate` call populates the cache with the schema value current
at that moment; any later sequence of operations (including the in-place
mutations `setSchemaMetaData` and `withOptions`) leaves the populated cache
untouched; and every call on a populated instance uses the matcher compiled
from the cached (possibly pre-mutation) schema, not the current one. -/
theorem claim_C2 (eval : Schema → Json → Bool)
    (errs : Schema → Json → Option (List ErrObj)) (st : ValState) (c : Nat) :
    (∀ d, st.compiled = none →
      ((isValidS eval st c d).2.1).cachedSchema = some st.schema
      ∧ ((validateS eval errs st c d).2.1).cachedSchema = some st.schema)
    ∧ (∀ m ops, st.compiled = some m →
      ((runOps eval errs ops (st, c)).1).compiled = some m)
    ∧ (∀ m d, st.compiled = some m →
      (isValidS eval st c d).1 = eval m.2 d
      ∧ (validateS eval errs st c d).1
          = (if eval m.2 d then VResult.ok d else VResult.err ((errs m.2 d).getD []))) := by
  refine ⟨?_, fun m ops h => compiled_stable_runOps eval errs ops (st, c) m h, ?_⟩
  · intro d h
    have key : ((getCompiledS st c).2.1).cachedSchema = some st.schema :=
      (cachedSchema_after_getCompiledS st c).trans (by rw [getCompiledS_fst_schema c h])
    refine ⟨key, ?_⟩
    have hc2 := getCompiledS_compiled_eq st c
    show ((validateS eval errs st c d).2.1).cachedSchema = some st.schema
    simp only [validateS, isValidS]
    split
    · exact key
    · rw [getCompiledS_of_some hc2]
      exact key
  · intro m d h
    refine ⟨by simp [isValidS, getCompiledS_of_some h], ?_⟩
    simp only [validateS, isValidS, getCompiledS_of_some h]
    split <;> rename_i hb <;> simp [hb]

/-- C2 witness: a fresh number validator, validated once, caches the number
schema; a metadata mutation after that leaves the cache intact, and the next
call uses the cached schema. -/
theorem claim_C2_witness :
    ((isValidS evTrue (initState number) 0 (Json.num 1)).2.1).cachedSchema
        = some (initState number).schema
    ∧ ((runOps evTrue errNone [VOp.setMeta ⟨some "t", none⟩]
        ((isValidS evTrue (initState number) 0 (Json.num 1)).2.1, 1)).1).compiled
        = some (0, number.getSchema)
    ∧ (isValidS evTrue ((isValidS evTrue (initState number) 0 (Json.num 1)).2.1)
        1 (Json.num 2)).1 = true :=
  ⟨((claim_C2 evTrue errNone (initState number) 0).1 (Json.num 1) rfl).1,
   (claim_C2 evTrue errNone ((isValidS evTrue (initState number) 0 (Json.num 1)).2.1) 1).2.1
     (0, number.getSchema) [VOp.setMeta ⟨some "t", none⟩] rfl,
   (((claim_C2 evTrue errNone ((isValidS evTrue (initState number) 0 (Json.num 1)).2.1)
      1).2.2 (0, number.getSchema) (Json.num 2) rfl).1).trans rfl⟩

/-- C3 counterexample: the claim says the engine is a process-wide singleton
obtained by every Validator.  But `getAjv` is a per-instance `once` field
(`src/src/index.ts` line 86): in one process, validating two fresh Validators
creates two distinct engine instances (creation indices 0 and 1; the
process-wide creation count ends at 2, not 1). -/
theorem claim_C3_counterexample :
    c3Run.1.ajv = some 0 ∧ c3Run.2.1.ajv = some 1 ∧ c3Run.2.2 = 2 :=
  ⟨rfl, rfl, rfl⟩

/-- C3 amended: the engine instance is per-Validator, not process-wide — each
instance lazily creates its own engine at most once, on its first validation
(the creation count rises by exactly one); once the instance's engine cell is
populated it never changes under any later operations; and a compilation on
an instance whose engine cell is already populated reuses that engine and
creates nothing new. -/
theorem claim_C3_amended (eval : Schema → Json → Bool)
    (errs : Schema → Json → Option (List ErrObj)) :
    (∀ (st : ValState) (c : Nat) (d : Json), st.ajv = none → st.compiled = none →
      ((isValidS eval st c d).2.1).ajv = some c ∧ (isValidS eval st c d).2.2 = c + 1)
    ∧ (∀ (s : ValState × Nat) (i : Nat) ops, s.1.ajv = some i →
      ((runOps eval errs ops s).1).ajv = some i)
    ∧ (∀ (st : ValState) (c : Nat) (d : Json) (i : Nat), st.ajv = some i →
      st.compiled = none →
      (isValidS eval st c d).2.2 = c
      ∧ ((isValidS eval st c d).2.1).compiled = some (i, st.schema)) := by
  refine ⟨?_, fun s i ops h => ajv_stable_runOps eval errs ops s i h, ?_⟩
  · intro st c d ha hc
    unfold isValidS getCompiledS getAjvS
    simp [ha, hc]
  · intro st c d i ha hc
    unfold isValidS getCompiledS getAjvS
    simp [ha, hc]

/-- C3 amended witness: a fresh validator's first validation creates engine 0
and bumps the count to 1; the engine cell survives later operations; an
instance with a cached engine but no compiled matcher compiles with it
without creating a new engine. -/
theorem claim_C3_amended_witness :
    (((isValidS evTrue (initState number) 0 (Json.num 1)).2.1).ajv = some 0
      ∧ (isValidS evTrue (initState number) 0 (Json.num 1)).2.2 = 0 + 1)
    ∧ ((runOps evTrue errNone [VOp.isvalid (Json.num 2)]
        ((isValidS evTrue (initState number) 0 (Json.num 1)).2.1, 1)).1).ajv = some 0
    ∧ ((isValidS evTrue (⟨number.getSchema, some 0, none⟩ : ValState) 1 (Json.num 2)).2.2 = 1
      ∧ ((isValidS evTrue (⟨number.getSchema, some 0, none⟩ : ValState) 1
          (Json.num 2)).2.1).compiled = some (0, number.getSchema)) :=
  ⟨(claim_C3_amended evTrue errNone).1 (initState number) 0 (Json.num 1) rfl rfl,
   (claim_C3_amended evTrue errNone).2.1
     ((isValidS evTrue (initState number) 0 (Json.num 1)).2.1, 1) 0
     [VOp.isvalid (Json.num 2)] rfl,
   (claim_C3_amended evTrue errNone).2.2 ⟨number.getSchema, some 0, none⟩ 1
     (Json.num 2) 0 rfl rfl⟩

/-- C4: whenever `validate` returns a valid result, its `data` is the input
value itself, passed through unchanged — the code returns the very binding it
received (`return { data, valid: true }`), with no coercion or defaulting. -/
theorem claim_C4 (eval : Schema → Json → Bool)
    (errs : Schema → Json → Option (List ErrObj)) (st : ValState) (c : Nat)
    (d x : Json) (h : (validateS eval errs st c d).1 = VResult.ok x) : x = d := by
  rcases hb : (isValidS eval st c d).1 with _ | _
  · simp only [validateS, hb, Bool.false_eq_true, if_false] at h
    exact VResult.noConfusion h
  · simp only [validateS, hb, if_true] at h
    injection h with h'
    exact h'.symm

/-- C4 witness: a successful validation of the number 3 returns 3 itself. -/
theorem claim_C4_witness :
    (validateS evTrue errNone (initState number) 0 (Json.num 3)).1 = VResult.ok (Json.num 3)
    ∧ Json.num 3 = Json.num 3 :=
  ⟨rfl, claim_C4 evTrue errNone (initState number) 0 (Json.num 3) (Json.num 3) rfl⟩

/-- C5: whenever `validate` returns an invalid result, its error list is
exactly the engine's reported error list for that input under the compiled
schema (`ajvValidator.errors`), defaulted to the empty list when the engine
reports no detail (`|| []`) — so callers can observe an empty error list on
an invalid result. -/
theorem claim_C5 (eval : Schema → Json → Bool)
    (errs : Schema → Json → Option (List ErrObj)) (st : ValState) (c : Nat)
    (d : Json) (es : List ErrObj) (h : (validateS eval errs st c d).1 = VResult.err es) :
    ∃ m, ((validateS eval errs st c d).2.1).compiled = some m
      ∧ es = (errs m.2 d).getD []
      ∧ (errs m.2 d = none → es = []) := by
  rcases hb : (isValidS eval st c d).1 with _ | _
  · refine ⟨(getCompiledS (isValidS eval st c d).2.1 (isValidS eval st c d).2.2).1, ?_, ?_, ?_⟩
    · simp only [validateS, hb, Bool.false_eq_true, if_false]
      exact getCompiledS_compiled_eq _ _
    · simp only [validateS, hb, Bool.false_eq_true, if_false] at h
      injection h with h'
      exact h'.symm
    · intro hn
      simp only [validateS, hb, Bool.false_eq_true, if_false] at h
      injection h with h'
      rw [← h', hn]
      rfl
  · exfalso
    simp only [validateS, hb, if_true] at h
    exact VResult.noConfusion h

/-- C5 witness: a failing validation returns exactly the engine's one-element
error report. -/
theorem claim_C5_witness :
    ∃ m, ((validateS evFalse errOne (initState number) 0 (Json.str "a")).2.1).compiled = some m
      ∧ [ErrObj.mk "" "#/type" "type" "should be number"] = (errOne m.2 (Json.str "a")).getD []
      ∧ (errOne m.2 (Json.str "a") = none →
          [ErrObj.mk "" "#/type" "type" "should be number"] = []) :=
  claim_C5 evFalse errOne (initState number) 0 (Json.str "a")
    [ErrObj.mk "" "#/type" "type" "should be number"] rfl

/-- C10: `string([])` is not `string()`: the empty array passes the JS
truthiness test, so the schema is `{ type: 'string', enum: [] }`, under which
the engine rejects every input (the empty enum admits no value), while
`string()` accepts any string. -/
theorem claim_C10 :
    (string (some [])).getSchema = (string none).getSchema.setEnum (some [])
    ∧ (string (some [])).getSchema.enum = some []
    ∧ (string none).getSchema.enum = none
    ∧ (∀ n j, isValidF (n + 1) (string (some [])) j = false)
    ∧ isValidF 5 (string none) (Json.str "a") = true
    ∧ isValidF 5 (string (some [])) (Json.str "a") = false := by
  refine ⟨rfl, rfl, rfl, ?_, by decide, by decide⟩
  intro n j
  cases j <;>
    simp [isValidF, string, Validator.getSchema, check_succ, checkBody, Schema.base,
      Schema.setEnum, Schema.setTy, Schema.ty, Schema.enum, Schema.properties,
      Schema.required, Schema.addProps, Schema.items, Schema.oneOf, Schema.allOf,
      Schema.minItems, typeOk, enumOk]

end ValidTyped
